/-
Verification development for the probe-lab/notebooks query builders
(src/queries/mempool_visibility.py and src/queries/network_overview.py).

The development has two layers.

1. A *text layer*: the query-builder functions are translated literally.
   Each Python fetch function formats a SQL string, hands it to an injected
   client capability, and returns either the pair (dataframe, query text)
   or, for the network-overview builder, only the row count.  The client is
   modelled as a function from query text to a list of rows; the Parquet
   file write performed by the network-overview builder is an external side
   effect and is not modelled.

2. A *semantic layer*: the meaning of each generated query is translated
   into executable Lean functions over typed tables (lists of records).
   Timestamps are integers (milliseconds since the Unix epoch), SQL
   DateTime literals such as '2020-01-01' become the corresponding
   millisecond constants, GROUP BY becomes deduplicated keys plus per-key
   filtered groups, countIf becomes List.countP, min(...) becomes
   List.min?, and SELECT DISTINCT becomes List.dedup.
-/
import Mathlib

/-- Single-quote character as a string (Char 39), used when reproducing the
Python f-strings, which wrap interpolated values in SQL single quotes. -/
def squote : String := toString (Char.ofNat 39)

/-- Milliseconds in one day (SQL `INTERVAL 1 DAY`). -/
def dayMs : Int := 86400000

/-- Milliseconds in one hour (SQL `INTERVAL 1 HOUR`). -/
def hourMs : Int := 3600000

/-- Milliseconds since the Unix epoch at 2020-01-01 00:00:00 UTC: the value
of the SQL literal '2020-01-01' used as a sentinel cutoff in
fetch_mempool_availability. -/
def epoch2020ms : Int := 1577836800000

/-- Row of the canonical_beacon_block_execution_transaction table,
restricted to the columns the queries read. -/
structure CanonicalTx where
  slot : Nat
  slot_start_date_time : Int
  txType : Nat
  hash : String
  meta_network_name : String
deriving DecidableEq

/-- Row of the mempool_transaction (broadcast log) table, restricted to the
columns the queries read. -/
structure MempoolTx where
  hash : String
  event_date_time : Int
  meta_network_name : String
  meta_client_name : String
deriving DecidableEq

/-- Row of the libp2p_connected_local table, restricted to the columns the
network-overview WHERE clause reads (the projected peer columns play no
role in any claim). -/
structure Libp2pRow where
  event_date_time : Int
  meta_network_name : String
deriving DecidableEq

/-- Return value of a fetch function.  The four mempool-visibility builders
execute `return df, query` (constructor `withQuery`); the network-overview
builder executes `return len(df)` (constructor `countOnly`). -/
inductive FetchReturn (DF : Type) where
  | withQuery (df : DF) (query : String)
  | countOnly (n : Nat)
deriving DecidableEq

/-- Whether a fetch function's return value carries the issued query text. -/
def FetchReturn.includesQueryText {DF : Type} : FetchReturn DF → Bool
  | .withQuery _ _ => true
  | .countOnly _ => false

namespace MempoolVisibility

/-- Translation of mempool_visibility._get_date_filter: generate a SQL date
filter for a specific date (half-open: `>=` the date, `<` the next day). -/
def get_date_filter (target_date : String) (column : String := "slot_start_date_time") : String :=
  column ++ " >= " ++ squote ++ target_date ++ squote ++ " AND " ++ column ++ " < " ++ squote
    ++ target_date ++ squote ++ "::date + INTERVAL 1 DAY"

/-- Query text built by fetch_tx_per_slot. -/
def tx_per_slot_query (target_date network : String) : String :=
  let date_filter := get_date_filter target_date
  "\nSELECT\n    slot,\n    slot_start_date_time,\n    type AS tx_type,\n    count() AS total_txs\nFROM canonical_beacon_block_execution_transaction\nWHERE meta_network_name = "
    ++ squote ++ network ++ squote ++ "\n  AND " ++ date_filter
    ++ "\nGROUP BY slot, slot_start_date_time, type\nORDER BY slot, type\n"

/-- Translation of fetch_tx_per_slot: build the query, issue it through the
client, return the pair (df, query). -/
def fetch_tx_per_slot {DF : Type} (client : String → DF) (target_date : String)
    (network : String := "mainnet") : FetchReturn DF :=
  let query := tx_per_slot_query target_date network
  let df := client query
  .withQuery df query

/-- Query text built by fetch_mempool_coverage. -/
def mempool_coverage_query (target_date network : String) : String :=
  let date_filter := get_date_filter target_date
  "\nSELECT\n    toStartOfHour(slot_start_date_time) AS hour,\n    type AS tx_type,\n    count() AS total_txs,\n    countIf(hash GLOBAL IN (\n        SELECT DISTINCT hash\n        FROM mempool_transaction\n        WHERE meta_network_name = "
    ++ squote ++ network ++ squote
    ++ "\n          AND event_date_time >= " ++ squote ++ target_date ++ squote
    ++ "::date - INTERVAL 1 HOUR\n          AND event_date_time < " ++ squote ++ target_date ++ squote
    ++ "::date + INTERVAL 1 DAY\n    )) AS seen_in_mempool\nFROM canonical_beacon_block_execution_transaction\nWHERE meta_network_name = "
    ++ squote ++ network ++ squote ++ "\n  AND " ++ date_filter
    ++ "\nGROUP BY hour, tx_type\nORDER BY hour, tx_type\n"

/-- Translation of fetch_mempool_coverage (text layer). -/
def fetch_mempool_coverage {DF : Type} (client : String → DF) (target_date : String)
    (network : String := "mainnet") : FetchReturn DF :=
  let query := mempool_coverage_query target_date network
  let df := client query
  .withQuery df query

/-- Query text built by fetch_sentry_coverage. -/
def sentry_coverage_query (target_date network : String) : String :=
  let date_filter := get_date_filter target_date
  "\nWITH canonical_hashes AS (\n    SELECT DISTINCT hash\n    FROM canonical_beacon_block_execution_transaction\n    WHERE meta_network_name = "
    ++ squote ++ network ++ squote ++ "\n      AND " ++ date_filter
    ++ "\n),\ntotal_canonical AS (\n    SELECT count() AS total FROM canonical_hashes\n)\nSELECT\n    meta_client_name AS sentry,\n    count(DISTINCT hash) AS txs_seen,\n    round(count(DISTINCT hash) * 100.0 / (SELECT total FROM total_canonical), 2) AS coverage_pct\nFROM mempool_transaction\nWHERE meta_network_name = "
    ++ squote ++ network ++ squote
    ++ "\n  AND event_date_time >= " ++ squote ++ target_date ++ squote
    ++ "::date - INTERVAL 1 HOUR\n  AND event_date_time < " ++ squote ++ target_date ++ squote
    ++ "::date + INTERVAL 1 DAY\n  AND hash GLOBAL IN (SELECT hash FROM canonical_hashes)\nGROUP BY meta_client_name\nORDER BY txs_seen DESC\n"

/-- Translation of fetch_sentry_coverage (text layer). -/
def fetch_sentry_coverage {DF : Type} (client : String → DF) (target_date : String)
    (network : String := "mainnet") : FetchReturn DF :=
  let query := sentry_coverage_query target_date network
  let df := client query
  .withQuery df query

/-- SQL fragment `seen_before` of fetch_mempool_availability. -/
def seen_before_sql : String :=
  "\n        m.first_event_time IS NOT NULL\n        AND m.first_event_time > " ++ squote
    ++ "2020-01-01" ++ squote ++ "\n        AND m.first_event_time < c.slot_start_date_time"

/-- SQL fragment `seen_after` of fetch_mempool_availability. -/
def seen_after_sql : String :=
  "\n        m.first_event_time IS NOT NULL\n        AND m.first_event_time > " ++ squote
    ++ "2020-01-01" ++ squote ++ "\n        AND m.first_event_time >= c.slot_start_date_time"

/-- SQL expression `age_ms` (dateDiff from first_event_time to slot start). -/
def age_ms_sql : String :=
  "dateDiff(" ++ squote ++ "millisecond" ++ squote ++ ", m.first_event_time, c.slot_start_date_time)"

/-- SQL expression `delay_ms` (dateDiff from slot start to first_event_time). -/
def delay_ms_sql : String :=
  "dateDiff(" ++ squote ++ "millisecond" ++ squote ++ ", c.slot_start_date_time, m.first_event_time)"

/-- The log2 bucket boundary table `bounds_ms` of fetch_mempool_availability
(14 millisecond thresholds, 500ms doubling, capped at one hour). -/
def bounds_ms : List Nat :=
  [500, 1000, 2000, 4000, 8000, 16000, 32000, 64000, 128000, 256000, 512000,
   1024000, 2048000, 3600000]

/-- The list `cols` built by the inner function hist_columns of
fetch_mempool_availability: one labelled countIf expression per bucket.
The Python loop `for i in range(len(bounds_ms) - 1)` pairs `bounds_ms[i]`
with `bounds_ms[i+1]`; `bounds_ms[-1]` is the last element. -/
def hist_columns_list (value_expr condition pfx : String) : List String :=
  ("countIf(" ++ value_expr ++ " < " ++ toString (bounds_ms.getD 0 0) ++ " AND " ++ condition
      ++ ") AS " ++ pfx ++ "_0")
    :: ((List.range (bounds_ms.length - 1)).map (fun i =>
          "countIf(" ++ value_expr ++ " >= " ++ toString (bounds_ms.getD i 0) ++ " AND "
            ++ value_expr ++ " < " ++ toString (bounds_ms.getD (i + 1) 0) ++ " AND "
            ++ condition ++ ") AS " ++ pfx ++ "_" ++ toString (i + 1))
        ++ ["countIf(" ++ value_expr ++ " >= " ++ toString (bounds_ms.getD (bounds_ms.length - 1) 0)
            ++ " AND " ++ condition ++ ") AS " ++ pfx ++ "_" ++ toString bounds_ms.length])

/-- Separator used by hist_columns when joining the column expressions. -/
def hist_sep : String := ",\n    "

/-- Translation of hist_columns: the joined column-expression string. -/
def hist_columns (value_expr condition pfx : String) : String :=
  String.intercalate hist_sep (hist_columns_list value_expr condition pfx)

/-- Query text built by fetch_mempool_availability. -/
def mempool_availability_query (target_date network : String) : String :=
  let date_filter := get_date_filter target_date
  let age_hist := hist_columns age_ms_sql seen_before_sql ("age_hist")
  let delay_hist := hist_columns delay_ms_sql seen_after_sql ("delay_hist")
  "\nWITH first_seen AS (\n    SELECT\n        hash,\n        min(event_date_time) AS first_event_time\n    FROM mempool_transaction\n    WHERE meta_network_name = "
    ++ squote ++ network ++ squote
    ++ "\n      AND event_date_time >= " ++ squote ++ target_date ++ squote
    ++ "::date - INTERVAL 1 DAY\n      AND event_date_time < " ++ squote ++ target_date ++ squote
    ++ "::date + INTERVAL 2 DAY\n    GROUP BY hash\n)\nSELECT\n    c.slot,\n    c.slot_start_date_time,\n    c.type AS tx_type,\n    count() AS total_txs,\n    -- Seen BEFORE slot start (public, available for inclusion)\n    countIf("
    ++ seen_before_sql
    ++ ") AS seen_before_slot,\n    -- Seen AFTER slot start (appeared after block propagation)\n    countIf("
    ++ seen_after_sql
    ++ ") AS seen_after_slot,\n    -- Age percentiles for transactions seen BEFORE (how long in mempool)\n    quantilesIf(0.50, 0.75, 0.80, 0.85, 0.90, 0.95, 0.99)(\n        "
    ++ age_ms_sql ++ ", " ++ seen_before_sql
    ++ "\n    ) AS age_percentiles_ms,\n    -- Delay percentiles for transactions seen AFTER (propagation delay)\n    quantilesIf(0.50, 0.75, 0.80, 0.85, 0.90, 0.95, 0.99)(\n        "
    ++ delay_ms_sql ++ ", " ++ seen_after_sql
    ++ "\n    ) AS delay_percentiles_ms,\n    -- Age histogram (log2 buckets in seconds)\n    "
    ++ age_hist
    ++ ",\n    -- Delay histogram (log2 buckets in seconds)\n    "
    ++ delay_hist
    ++ "\nFROM canonical_beacon_block_execution_transaction c\nGLOBAL LEFT JOIN first_seen m ON c.hash = m.hash\nWHERE c.meta_network_name = "
    ++ squote ++ network ++ squote ++ "\n  AND " ++ date_filter
    ++ "\nGROUP BY c.slot, c.slot_start_date_time, c.type\nORDER BY c.slot, c.type\n"

/-- Translation of fetch_mempool_availability (text layer). -/
def fetch_mempool_availability {DF : Type} (client : String → DF) (target_date : String)
    (network : String := "mainnet") : FetchReturn DF :=
  let query := mempool_availability_query target_date network
  let df := client query
  .withQuery df query

/-- Histogram bucket labels for visualization (module constant
AGE_HIST_LABELS of mempool_visibility.py). -/
def AGE_HIST_LABELS : List String :=
  ["<0.5s", "0.5-1s", "1-2s", "2-4s", "4-8s", "8-16s",
   "16-32s", "32s-1m", "1-2m", "2-4m", "4-8m", "8-17m",
   "17-34m", "34-60m", ">=1h"]

end MempoolVisibility

namespace NetworkOverview

/-- Translation of network_overview._get_date_filter: a BETWEEN filter
(SQL BETWEEN is inclusive on both endpoints). -/
def get_date_filter (target_date : String) (column : String := "slot_start_date_time") : String :=
  column ++ " BETWEEN " ++ squote ++ target_date ++ squote ++ " AND " ++ squote ++ target_date ++ squote
    ++ "::date + INTERVAL 1 DAY"

/-- Query text built by fetch_xatu_client_connectivity. -/
def xatu_client_connectivity_query (target_date network : String) : String :=
  let date_filter := get_date_filter target_date ("event_date_time")
  "\nSELECT\n    toStartOfInterval(event_date_time, INTERVAL 1 hour) AS hour_bucket,\n    remote_peer_id_unique_key as peer_id,\n    remote_protocol as protocol,\n    remote_transport_protocol as transport_protocol,\n    remote_port as port,\n    remote_agent_implementation as client_name,\n    meta_client_name as local_name,\n    remote_geo_country_code as geo_country_code\nFROM libp2p_connected_local\nWHERE\n    meta_network_name LIKE "
    ++ squote ++ network ++ squote ++ "\n    AND " ++ date_filter
    ++ "\nORDER BY hour_bucket ASC\n"

/-- Translation of fetch_xatu_client_connectivity: build the query, issue it
through the client, write the dataframe to Parquet (an external side effect,
not modelled; the `_output_path` parameter is kept for the signature), and
return only the row count `len(df)`. -/
def fetch_xatu_client_connectivity {Row : Type} (client : String → List Row)
    (target_date : String) (_output_path : String) (network : String := "mainnet") :
    FetchReturn (List Row) :=
  let query := xatu_client_connectivity_query target_date network
  let df := client query
  .countOnly df.length

end NetworkOverview

/-!
Semantic layer: SQL LIKE matching (SQL-92 pattern semantics without an
ESCAPE clause: percent matches any sequence, underscore matches any single
character, every other character matches itself).
-/

/-- SQL LIKE pattern matching over character lists.  A leading percent
matches when the rest of the pattern matches some suffix of the subject. -/
def sqlLike : List Char → List Char → Bool
  | [], s => s.isEmpty
  | c :: ps, [] => c == '%' && sqlLike ps []
  | c :: ps, d :: s =>
    if c == '%' then (d :: s).tails.any (fun suffix => sqlLike ps suffix)
    else (c == '_' || c == d) && sqlLike ps s

/-- Whether a pattern string contains no LIKE wildcard characters. -/
def no_like_wildcards (p : String) : Bool :=
  p.toList.all (fun c => !(c == '%') && !(c == '_'))

/-!
Semantic layer: histogram bucket predicates generated by hist_columns.
Each SQL column `countIf(cond_i AND restriction)` counts the rows whose
value satisfies the bucket condition `cond_i` and which satisfy the
restriction.  `histPreds` lists the fifteen bucket conditions as Boolean
predicates on the integer value, in emission order: the Python loop over
`bounds_ms[i], bounds_ms[i+1]` for consecutive indices is rendered as a
recursion over consecutive pairs of the boundary list.
-/

/-- Middle range buckets `a <= v < b` for consecutive boundary pairs,
followed by the final bucket `last <= v`. -/
def middleAndLast : Nat → List Nat → List (Int → Bool)
  | a, [] => [fun v => decide ((a : Int) ≤ v)]
  | a, b :: rest =>
    (fun v => decide ((a : Int) ≤ v) && decide (v < (b : Int))) :: middleAndLast b rest

/-- All bucket predicates emitted by hist_columns for a boundary list:
bucket 0 is `v < bounds[0]`, then the middle and last buckets. -/
def histPreds : List Nat → List (Int → Bool)
  | [] => []
  | b :: rest => (fun v => decide (v < (b : Int))) :: middleAndLast b rest

/-- Adjacent-sortedness of a boundary list (decidable by evaluation). -/
def sortedAdj : List Nat → Bool
  | a :: b :: rest => decide (a ≤ b) && sortedAdj (b :: rest)
  | _ => true

/-- Number of bucket predicates satisfied by a value. -/
def countHit (v : Int) (ps : List (Int → Bool)) : Nat :=
  ps.countP (fun p => p v)

namespace MempoolVisibility

/-- Meaning of the date-filter fragment of mempool_visibility._get_date_filter
applied to a timestamp: `column >= target AND column < target + 1 day`,
where `dayStart` is the start-of-day timestamp the target date denotes. -/
def dateFilterHolds (dayStart t : Int) : Bool :=
  decide (dayStart ≤ t) && decide (t < dayStart + dayMs)

/-- WHERE clause shared by the four mempool-visibility builders on the
canonical transaction table: network equality plus the one-day date filter. -/
def tx_where (network : String) (dayStart : Int) (c : CanonicalTx) : Bool :=
  decide (c.meta_network_name = network) && dateFilterHolds dayStart c.slot_start_date_time

/-!
Semantics of fetch_mempool_coverage: hourly groups of canonical
transactions, counting the subset whose hash is in the deduplicated set of
mempool hashes observed from one hour before the day through its end.
-/

/-- ClickHouse toStartOfHour on a millisecond timestamp. -/
def toStartOfHour (t : Int) : Int := t - t % hourMs

/-- The deduplicated hash set of the coverage semi-join subquery:
`SELECT DISTINCT hash FROM mempool_transaction WHERE network AND window`. -/
def mempool_hash_set (ms : List MempoolTx) (network : String) (dayStart : Int) : List String :=
  ((ms.filter (fun m =>
      decide (m.meta_network_name = network)
        && decide (dayStart - hourMs ≤ m.event_date_time)
        && decide (m.event_date_time < dayStart + dayMs))).map (fun m => m.hash)).dedup

/-- Canonical rows admitted by the coverage query's WHERE clause. -/
def coverage_base (canon : List CanonicalTx) (network : String) (dayStart : Int) :
    List CanonicalTx :=
  canon.filter (tx_where network dayStart)

/-- GROUP BY key of the coverage query: (hour, tx type). -/
def coverage_key (c : CanonicalTx) : Int × Nat :=
  (toStartOfHour c.slot_start_date_time, c.txType)

/-- Distinct group keys of the coverage query, in first-occurrence order. -/
def coverage_keys (canon : List CanonicalTx) (network : String) (dayStart : Int) :
    List (Int × Nat) :=
  ((coverage_base canon network dayStart).map coverage_key).dedup

/-- Rows of one coverage group. -/
def coverage_group (canon : List CanonicalTx) (network : String) (dayStart : Int)
    (k : Int × Nat) : List CanonicalTx :=
  (coverage_base canon network dayStart).filter (fun c => decide (coverage_key c = k))

/-- Result row of fetch_mempool_coverage. -/
structure CoverageRow where
  hour : Int
  tx_type : Nat
  total_txs : Nat
  seen_in_mempool : Nat
deriving DecidableEq

/-- Result table of fetch_mempool_coverage: per (hour, type) group, the
total count and the count of rows whose hash is in the deduplicated
mempool hash set (`countIf(hash GLOBAL IN (...))`). -/
def fetch_mempool_coverage_rows (canon : List CanonicalTx) (ms : List MempoolTx)
    (network : String) (dayStart : Int) : List CoverageRow :=
  (coverage_keys canon network dayStart).map (fun k =>
    ⟨k.1, k.2, (coverage_group canon network dayStart k).length,
      (coverage_group canon network dayStart k).countP (fun c =>
        decide (c.hash ∈ mempool_hash_set ms network dayStart))⟩)

/-- Restatement of the coverage result following the specification's words:
the membership test is logically an EXISTS against the mempool rows of the
window (one hour before the day through its end), matching on hash.  Used
to compare against `fetch_mempool_coverage_rows`. -/
def fetch_mempool_coverage_rows_claim (canon : List CanonicalTx) (ms : List MempoolTx)
    (network : String) (dayStart : Int) : List CoverageRow :=
  (coverage_keys canon network dayStart).map (fun k =>
    ⟨k.1, k.2, (coverage_group canon network dayStart k).length,
      (coverage_group canon network dayStart k).countP (fun c =>
        decide (∃ m ∈ ms, m.meta_network_name = network
          ∧ dayStart - hourMs ≤ m.event_date_time
          ∧ m.event_date_time < dayStart + dayMs
          ∧ m.hash = c.hash))⟩)

/-!
Semantics of fetch_sentry_coverage.
-/

/-- The canonical_hashes CTE: distinct canonical transaction hashes of the
target day. -/
def canonical_hashes (canon : List CanonicalTx) (network : String) (dayStart : Int) :
    List String :=
  ((canon.filter (tx_where network dayStart)).map (fun c => c.hash)).dedup

/-- The total_canonical CTE: the scalar denominator, computed once per
invocation from (canon, network, dayStart) only. -/
def total_canonical (canon : List CanonicalTx) (network : String) (dayStart : Int) : Nat :=
  (canonical_hashes canon network dayStart).length

/-- Mempool rows admitted by the sentry-coverage WHERE clause: network,
window from one hour before the day through its end, and hash membership
in the canonical_hashes CTE (`hash GLOBAL IN (SELECT hash FROM
canonical_hashes)`). -/
def sentry_pool (ms : List MempoolTx) (canon : List CanonicalTx) (network : String)
    (dayStart : Int) : List MempoolTx :=
  ms.filter (fun m =>
    decide (m.meta_network_name = network)
      && decide (dayStart - hourMs ≤ m.event_date_time)
      && decide (m.event_date_time < dayStart + dayMs)
      && decide (m.hash ∈ canonical_hashes canon network dayStart))

/-- Distinct sentry names (GROUP BY meta_client_name), in first-occurrence
order; the descending ORDER BY txs_seen only permutes the rows and is not
modelled. -/
def sentry_names (ms : List MempoolTx) (canon : List CanonicalTx) (network : String)
    (dayStart : Int) : List String :=
  ((sentry_pool ms canon network dayStart).map (fun m => m.meta_client_name)).dedup

/-- Per-sentry distinct observed canonical hashes (count(DISTINCT hash)). -/
def txs_seen (ms : List MempoolTx) (canon : List CanonicalTx) (network : String)
    (dayStart : Int) (s : String) : Nat :=
  ((((sentry_pool ms canon network dayStart).filter
      (fun m => decide (m.meta_client_name = s))).map (fun m => m.hash)).dedup).length

/-- ClickHouse round(x, 2): round to two decimal places (modelled with
Mathlib's round-half-up; the rounding direction at exact midpoints plays no
role in any claim). -/
def round2 (q : ℚ) : ℚ := (round (q * 100) : ℤ) / 100

/-- Result row of fetch_sentry_coverage. -/
structure SentryRow where
  sentry : String
  txs_seen : Nat
  coverage_pct : ℚ

/-- Result row for one sentry: `round(count(DISTINCT hash) * 100.0 /
(SELECT total FROM total_canonical), 2)`. -/
def sentryRow (ms : List MempoolTx) (canon : List CanonicalTx) (network : String)
    (dayStart : Int) (s : String) : SentryRow :=
  ⟨s, txs_seen ms canon network dayStart s,
    round2 ((txs_seen ms canon network dayStart s : ℚ) * 100
      / (total_canonical canon network dayStart : ℚ))⟩

/-- Result table of fetch_sentry_coverage (row order not modelled). -/
def fetch_sentry_coverage_rows (ms : List MempoolTx) (canon : List CanonicalTx)
    (network : String) (dayStart : Int) : List SentryRow :=
  (sentry_names ms canon network dayStart).map (sentryRow ms canon network dayStart)

/-!
Semantics of fetch_mempool_availability.
-/

/-- Mempool rows admitted by the first_seen CTE's WHERE clause: network and
the three-day window from one day before the target day up to, excluding,
two days after its start.  Note there is no sentinel-timestamp filter here. -/
def first_seen_window (ms : List MempoolTx) (network : String) (dayStart : Int) :
    List MempoolTx :=
  ms.filter (fun m =>
    decide (m.meta_network_name = network)
      && decide (dayStart - dayMs ≤ m.event_date_time)
      && decide (m.event_date_time < dayStart + 2 * dayMs))

/-- The first_seen CTE as a per-hash lookup: `min(event_date_time)` of the
windowed rows grouped by hash; `none` when the hash has no windowed row
(the LEFT JOIN then yields NULL). -/
def first_event_time (ms : List MempoolTx) (network : String) (dayStart : Int)
    (h : String) : Option Int :=
  (((first_seen_window ms network dayStart).filter (fun m => decide (m.hash = h))).map
    (fun m => m.event_date_time)).min?

/-- Variant of the first-seen lookup following the claim's words: sentinel
or placeholder timestamps earlier than 2020-01-01 are excluded before the
per-hash minimum is taken.  Used to compare against `first_event_time`. -/
def first_event_time_claim (ms : List MempoolTx) (network : String) (dayStart : Int)
    (h : String) : Option Int :=
  (((ms.filter (fun m =>
      decide (m.meta_network_name = network)
        && decide (dayStart - dayMs ≤ m.event_date_time)
        && decide (m.event_date_time < dayStart + 2 * dayMs)
        && decide (epoch2020ms ≤ m.event_date_time))).filter
          (fun m => decide (m.hash = h))).map (fun m => m.event_date_time)).min?

/-- A canonical transaction after the GLOBAL LEFT JOIN with first_seen. -/
structure JoinedTx where
  slot : Nat
  slot_start_date_time : Int
  txType : Nat
  first_event_time : Option Int
deriving DecidableEq

/-- Condition fragment `seen_before`: first_event_time IS NOT NULL, is
after the 2020-01-01 sentinel, and is strictly before slot start. -/
def seen_before (j : JoinedTx) : Bool :=
  match j.first_event_time with
  | none => false
  | some t => decide (epoch2020ms < t) && decide (t < j.slot_start_date_time)

/-- Condition fragment `seen_after`: first_event_time IS NOT NULL, is after
the 2020-01-01 sentinel, and is at or after slot start. -/
def seen_after (j : JoinedTx) : Bool :=
  match j.first_event_time with
  | none => false
  | some t => decide (epoch2020ms < t) && decide (j.slot_start_date_time ≤ t)

/-- Whether the joined transaction has a valid (non-null, post-sentinel)
first-seen timestamp. -/
def has_valid_first_seen (j : JoinedTx) : Bool :=
  match j.first_event_time with
  | none => false
  | some t => decide (epoch2020ms < t)

/-- Value expression `age_ms` = dateDiff('millisecond', first seen, slot
start) = slot start − first seen.  On a NULL first-seen the SQL value is
NULL and every bucket conjunction is non-true; the placeholder 0 used here
is likewise never counted because the `seen_before` conjunct is false. -/
def age_ms (j : JoinedTx) : Int :=
  match j.first_event_time with
  | some t => j.slot_start_date_time - t
  | none => 0

/-- Value expression `delay_ms` = dateDiff('millisecond', slot start, first
seen) = first seen − slot start (placeholder 0 on NULL, as for age_ms). -/
def delay_ms (j : JoinedTx) : Int :=
  match j.first_event_time with
  | some t => t - j.slot_start_date_time
  | none => 0

/-- Canonical rows admitted by the availability WHERE clause, LEFT JOINed
with the first_seen lookup (first_seen has at most one row per hash, so the
join attaches exactly one optional timestamp to each canonical row). -/
def avail_join (canon : List CanonicalTx) (ms : List MempoolTx) (network : String)
    (dayStart : Int) : List JoinedTx :=
  (canon.filter (tx_where network dayStart)).map (fun c =>
    ⟨c.slot, c.slot_start_date_time, c.txType, first_event_time ms network dayStart c.hash⟩)

/-- GROUP BY key of the availability query: (slot, slot start, tx type). -/
def avail_key (j : JoinedTx) : Nat × Int × Nat :=
  (j.slot, j.slot_start_date_time, j.txType)

/-- Distinct availability group keys, in first-occurrence order (the final
ORDER BY only permutes rows and is not modelled). -/
def avail_keys (canon : List CanonicalTx) (ms : List MempoolTx) (network : String)
    (dayStart : Int) : List (Nat × Int × Nat) :=
  ((avail_join canon ms network dayStart).map avail_key).dedup

/-- Rows of one availability group. -/
def avail_group (canon : List CanonicalTx) (ms : List MempoolTx) (network : String)
    (dayStart : Int) (k : Nat × Int × Nat) : List JoinedTx :=
  (avail_join canon ms network dayStart).filter (fun j => decide (avail_key j = k))

/-- Result row of fetch_mempool_availability (the seven quantilesIf
percentile columns concern no claim and are not modelled). -/
structure AvailRow where
  slot : Nat
  slot_start_date_time : Int
  tx_type : Nat
  total_txs : Nat
  seen_before_slot : Nat
  seen_after_slot : Nat
  age_hist : List Nat
  delay_hist : List Nat
deriving DecidableEq

/-- One availability result row computed from its group: count(),
countIf(seen_before), countIf(seen_after), and the two fifteen-bucket
histograms, each bucket `countIf(bucket condition AND restriction)`. -/
def availRow (g : List JoinedTx) (k : Nat × Int × Nat) : AvailRow :=
  ⟨k.1, k.2.1, k.2.2, g.length, g.countP seen_before, g.countP seen_after,
    (histPreds bounds_ms).map (fun p => g.countP (fun j => p (age_ms j) && seen_before j)),
    (histPreds bounds_ms).map (fun p => g.countP (fun j => p (delay_ms j) && seen_after j))⟩

/-- Result table of fetch_mempool_availability. -/
def fetch_mempool_availability_rows (canon : List CanonicalTx) (ms : List MempoolTx)
    (network : String) (dayStart : Int) : List AvailRow :=
  (avail_keys canon ms network dayStart).map (fun k =>
    availRow (avail_group canon ms network dayStart k) k)

/-!
Rendering of the AGE_HIST_LABELS bucket labels from the boundary table.
Sub-minute boundaries are shown in seconds (500 ms as "0.5"), boundaries of
a minute or more are shown as whole minutes rounded down, and the final
open bucket shows its boundary in whole hours.
-/

/-- Display a millisecond boundary in seconds: tenths below one second,
whole seconds otherwise. -/
def fmtSecVal (v : Nat) : String :=
  if v < 1000 then "0." ++ toString (v / 100) else toString (v / 1000)

/-- Display a millisecond boundary in whole minutes (rounded down). -/
def fmtMinVal (v : Nat) : String := toString (v / 60000)

/-- Human label of a middle bucket `[lo, hi)`: both endpoints in seconds
when the bucket ends at or below one minute, both in minutes when it starts
at or above one minute, mixed units otherwise. -/
def rangeLabel (lo hi : Nat) : String :=
  if hi ≤ 60000 then fmtSecVal lo ++ "-" ++ fmtSecVal hi ++ "s"
  else if 60000 ≤ lo then fmtMinVal lo ++ "-" ++ fmtMinVal hi ++ "m"
  else fmtSecVal lo ++ "s-" ++ fmtMinVal hi ++ "m"

/-- Human label of bucket `i` of a boundary list: bucket 0 is below the
first boundary, the last bucket is at or above the final boundary (shown in
hours), and each middle bucket `i` covers `[bounds[i-1], bounds[i])`. -/
def bucketLabel (bounds : List Nat) (i : Nat) : String :=
  if i = 0 then "<" ++ fmtSecVal (bounds.headD 0) ++ "s"
  else if i = bounds.length then ">=" ++ toString (bounds.getLastD 0 / 3600000) ++ "h"
  else rangeLabel (bounds.getD (i - 1) 0) (bounds.getD i 0)

end MempoolVisibility

namespace NetworkOverview

/-- Meaning of the date-filter fragment of network_overview._get_date_filter
applied to a timestamp: BETWEEN is inclusive at both endpoints, so the
fragment admits `dayStart ≤ t ≤ dayStart + 1 day`. -/
def dateFilterHolds (dayStart t : Int) : Bool :=
  decide (dayStart ≤ t) && decide (t ≤ dayStart + dayMs)

/-- WHERE clause of the xatu connectivity query on a libp2p row: the
network column is matched with SQL LIKE against the caller-supplied
network string, and the date filter runs on event_date_time. -/
def xatu_where (network : String) (dayStart : Int) (r : Libp2pRow) : Bool :=
  sqlLike network.toList r.meta_network_name.toList
    && dateFilterHolds dayStart r.event_date_time

end NetworkOverview

/-!
Concrete data used by the witness and counterexample theorems.
-/

/-- Start of an example target day (2020-01-02 UTC in milliseconds). -/
def wDay : Int := epoch2020ms + dayMs

/-- Two canonical transactions in the same slot/type group of the example
day: hash "h1" is observed in the mempool, hash "h2" never is. -/
def wCanon : List CanonicalTx :=
  [⟨1, wDay, 2, "h1", "mainnet"⟩, ⟨1, wDay, 2, "h2", "mainnet"⟩]

/-- One mempool observation of hash "h1" by sentry "s1", 400 ms before the
slot start of the example day. -/
def wMs : List MempoolTx :=
  [⟨"h1", wDay - 400, "mainnet", "s1"⟩]

/-- Mempool observations exhibiting a pre-2020 sentinel timestamp inside
the three-day first_seen window of a target day at 2020-01-01. -/
def wSentinelMs : List MempoolTx :=
  [⟨"h", epoch2020ms - dayMs, "mainnet", "s"⟩, ⟨"h", epoch2020ms + 5, "mainnet", "s"⟩]

theorem countHit_cons (v : Int) (p : Int → Bool) (ps : List (Int → Bool)) :
    countHit v (p :: ps) = countHit v ps + (if p v = true then 1 else 0) := by
  simp [countHit, List.countP_cons]

theorem countHit_middleAndLast : ∀ (rest : List Nat) (a : Nat),
    sortedAdj (a :: rest) = true →
    ∀ v : Int, countHit v (middleAndLast a rest) = if (a : Int) ≤ v then 1 else 0 := by
  intro rest
  induction rest with
  | nil =>
    intro a _ v
    simp only [middleAndLast]
    rw [countHit_cons]
    simp [countHit, decide_eq_true_eq]
  | cons b rest ih =>
    intro a hs v
    simp only [sortedAdj, Bool.and_eq_true, decide_eq_true_eq] at hs
    obtain ⟨hab, hrest⟩ := hs
    have hab' : (a : Int) ≤ (b : Int) := by exact_mod_cast hab
    simp only [middleAndLast]
    rw [countHit_cons, ih b hrest v]
    simp only [Bool.and_eq_true, decide_eq_true_eq]
    split_ifs <;> omega

theorem countHit_histPreds (bounds : List Nat) (hs : sortedAdj bounds = true)
    (hne : bounds ≠ []) (v : Int) : countHit v (histPreds bounds) = 1 := by
  cases bounds with
  | nil => exact absurd rfl hne
  | cons b rest =>
    simp only [histPreds]
    rw [countHit_cons, countHit_middleAndLast rest b hs v]
    simp only [decide_eq_true_eq]
    split_ifs <;> omega

theorem countP_hist_cond (bounds : List Nat) (hs : sortedAdj bounds = true)
    (hne : bounds ≠ []) (v : Int) (c : Bool) :
    (histPreds bounds).countP (fun p => p v && c) = if c then 1 else 0 := by
  cases c with
  | false => simp
  | true =>
    simp only [Bool.and_true, if_true]
    exact countHit_histPreds bounds hs hne v

theorem sum_map_add {α : Type} (l : List α) (f g : α → Nat) :
    (l.map (fun a => f a + g a)).sum = (l.map f).sum + (l.map g).sum := by
  induction l with
  | nil => rfl
  | cons a l ih => simp only [List.map_cons, List.sum_cons, ih]; omega

theorem sum_map_ite_one {α : Type} (l : List α) (q : α → Bool) :
    (l.map (fun a => if q a then 1 else 0)).sum = l.countP q := by
  induction l with
  | nil => rfl
  | cons a l ih => simp only [List.map_cons, List.sum_cons, ih, List.countP_cons]; omega

theorem hist_counts_sum {β : Type} (ps : List (Int → Bool)) (val : β → Int) (c : β → Bool)
    (hps : ∀ (v : Int) (b : Bool), ps.countP (fun p => p v && b) = if b then 1 else 0)
    (g : List β) :
    (ps.map (fun p => g.countP (fun j => p (val j) && c j))).sum = g.countP c := by
  induction g with
  | nil => simp
  | cons j g ih =>
    simp only [List.countP_cons]
    rw [sum_map_add, ih, sum_map_ite_one, hps (val j) (c j)]

open MempoolVisibility in
/-- C1: in every slot/type group of the fetch_mempool_availability result,
the fifteen age-histogram bucket counts sum exactly to seen_before_slot and
the fifteen delay-histogram bucket counts sum exactly to seen_after_slot;
the bucket predicates generated by hist_columns are pairwise disjoint and
jointly exhaustive, so a row satisfying the restriction is counted in
exactly one bucket and a row failing it is counted in none. -/
theorem availability_hist_sum_invariant :
    ∀ (canon : List CanonicalTx) (ms : List MempoolTx) (network : String) (dayStart : Int)
      (k : Nat × Int × Nat), k ∈ avail_keys canon ms network dayStart →
      ((availRow (avail_group canon ms network dayStart k) k).age_hist.sum
          = (availRow (avail_group canon ms network dayStart k) k).seen_before_slot
        ∧ (availRow (avail_group canon ms network dayStart k) k).delay_hist.sum
          = (availRow (avail_group canon ms network dayStart k) k).seen_after_slot)
      ∧ (∀ (v : Int) (c : Bool),
          (histPreds bounds_ms).countP (fun p => p v && c) = if c then 1 else 0) := by
  intro canon ms network dayStart k _
  have hcond := countP_hist_cond bounds_ms rfl (by decide)
  refine ⟨⟨?_, ?_⟩, hcond⟩
  · exact hist_counts_sum (histPreds bounds_ms) age_ms seen_before hcond
      (avail_group canon ms network dayStart k)
  · exact hist_counts_sum (histPreds bounds_ms) delay_ms seen_after hcond
      (avail_group canon ms network dayStart k)

open MempoolVisibility in
/-- Witness for C1 at concrete data: the single group of the example day. -/
theorem availability_hist_sum_invariant_witness :
    ((1, wDay, 2) ∈ avail_keys wCanon wMs ("mainnet") wDay)
    ∧ (((availRow (avail_group wCanon wMs ("mainnet") wDay (1, wDay, 2)) (1, wDay, 2)).age_hist.sum
          = (availRow (avail_group wCanon wMs ("mainnet") wDay (1, wDay, 2)) (1, wDay, 2)).seen_before_slot
        ∧ (availRow (avail_group wCanon wMs ("mainnet") wDay (1, wDay, 2)) (1, wDay, 2)).delay_hist.sum
          = (availRow (avail_group wCanon wMs ("mainnet") wDay (1, wDay, 2)) (1, wDay, 2)).seen_after_slot)
      ∧ (∀ (v : Int) (c : Bool),
          (histPreds bounds_ms).countP (fun p => p v && c) = if c then 1 else 0)) :=
  ⟨by decide, availability_hist_sum_invariant wCanon wMs ("mainnet") wDay (1, wDay, 2) (by decide)⟩

open MempoolVisibility in
/-- C2: hist_columns over the fourteen ascending boundaries emits exactly
fifteen bucket expressions; the bucket value ranges are non-overlapping and
exhaustive over the nonnegative values, bucket 0 is `value < 500`, middle
bucket i is `bounds[i-1] <= value < bounds[i]`, bucket 14 is
`value >= 3600000`, and 750 ms satisfies only the bucket-1 predicate. -/
theorem hist_buckets_partition :
    bounds_ms.length = 14
    ∧ (∀ value_expr condition pfx : String,
        (hist_columns_list value_expr condition pfx).length = 15)
    ∧ (histPreds bounds_ms).length = 15
    ∧ (∀ v : Int, 0 ≤ v → countHit v (histPreds bounds_ms) = 1)
    ∧ (∀ v : Int, ((histPreds bounds_ms).getD 0 (fun _ => false)) v = true ↔ v < 500)
    ∧ (∀ i : Nat, 1 ≤ i → i ≤ 13 → ∀ v : Int,
        ((histPreds bounds_ms).getD i (fun _ => false)) v = true
          ↔ ((bounds_ms.getD (i - 1) 0 : Int) ≤ v ∧ v < (bounds_ms.getD i 0 : Int)))
    ∧ (∀ v : Int, ((histPreds bounds_ms).getD 14 (fun _ => false)) v = true
        ↔ (3600000 : Int) ≤ v)
    ∧ ((histPreds bounds_ms).getD 1 (fun _ => false)) 750 = true
    ∧ ((histPreds bounds_ms).getD 0 (fun _ => false)) 750 = false
    ∧ ((histPreds bounds_ms).getD 2 (fun _ => false)) 750 = false := by
  refine ⟨rfl, ?_, rfl, ?_, ?_, ?_, ?_, by decide, by decide, by decide⟩
  · intro a b c
    simp [hist_columns_list, bounds_ms]
  · intro v _
    exact countHit_histPreds bounds_ms rfl (by decide) v
  · intro v
    simp [histPreds, middleAndLast, bounds_ms]
  · intro i h1 h13
    interval_cases i <;> intro v <;>
      simp [histPreds, middleAndLast, bounds_ms, Bool.and_eq_true, decide_eq_true_eq]
  · intro v
    simp [histPreds, middleAndLast, bounds_ms]

open MempoolVisibility in
/-- Witness for C2: the exhaustiveness/exclusivity conjunct applied at 750. -/
theorem hist_buckets_partition_witness :
    (0 : Int) ≤ 750 ∧ countHit 750 (histPreds bounds_ms) = 1 :=
  ⟨by decide, hist_buckets_partition.2.2.2.1 750 (by decide)⟩

open MempoolVisibility in
theorem countP_seen_split (g : List JoinedTx) :
    g.countP seen_before + g.countP seen_after = g.countP has_valid_first_seen := by
  induction g with
  | nil => rfl
  | cons j g ih =>
    simp only [List.countP_cons]
    have hj : (if seen_before j = true then 1 else 0) + (if seen_after j = true then 1 else 0)
        = (if has_valid_first_seen j = true then 1 else 0) := by
      cases hfe : j.first_event_time with
      | none => simp [seen_before, seen_after, has_valid_first_seen, hfe]
      | some t =>
        simp only [seen_before, seen_after, has_valid_first_seen, hfe,
          Bool.and_eq_true, decide_eq_true_eq]
        split_ifs <;> omega
    omega

open MempoolVisibility in
/-- C6: per slot/type group, seen_before_slot + seen_after_slot is at most
total_txs, with equality exactly when every transaction in the group has a
valid (non-null, post-2020-01-01) first-seen timestamp; a transaction with
no first-seen row satisfies neither condition yet still counts in total. -/
theorem availability_seen_counts :
    ∀ (canon : List CanonicalTx) (ms : List MempoolTx) (network : String) (dayStart : Int)
      (k : Nat × Int × Nat), k ∈ avail_keys canon ms network dayStart →
      ((availRow (avail_group canon ms network dayStart k) k).seen_before_slot
          + (availRow (avail_group canon ms network dayStart k) k).seen_after_slot
          ≤ (availRow (avail_group canon ms network dayStart k) k).total_txs)
      ∧ ((availRow (avail_group canon ms network dayStart k) k).seen_before_slot
            + (availRow (avail_group canon ms network dayStart k) k).seen_after_slot
            = (availRow (avail_group canon ms network dayStart k) k).total_txs
          ↔ ∀ j ∈ avail_group canon ms network dayStart k, has_valid_first_seen j = true)
      ∧ (∀ j : JoinedTx, j.first_event_time = none →
          seen_before j = false ∧ seen_after j = false) := by
  intro canon ms network dayStart k _
  refine ⟨?_, ?_, ?_⟩
  · show (avail_group canon ms network dayStart k).countP seen_before
        + (avail_group canon ms network dayStart k).countP seen_after
        ≤ (avail_group canon ms network dayStart k).length
    rw [countP_seen_split]
    exact List.countP_le_length _
  · show (avail_group canon ms network dayStart k).countP seen_before
        + (avail_group canon ms network dayStart k).countP seen_after
        = (avail_group canon ms network dayStart k).length ↔ _
    rw [countP_seen_split]
    exact List.countP_eq_length
  · intro j hj
    simp [seen_before, seen_after, hj]

open MempoolVisibility in
/-- Witness for C6 at concrete data: the example group has one seen and one
unseen transaction, so the sum is strictly below the total. -/
theorem availability_seen_counts_witness :
    ((1, wDay, 2) ∈ avail_keys wCanon wMs ("mainnet") wDay)
    ∧ ((availRow (avail_group wCanon wMs ("mainnet") wDay (1, wDay, 2)) (1, wDay, 2)).seen_before_slot
        + (availRow (avail_group wCanon wMs ("mainnet") wDay (1, wDay, 2)) (1, wDay, 2)).seen_after_slot
        ≤ (availRow (avail_group wCanon wMs ("mainnet") wDay (1, wDay, 2)) (1, wDay, 2)).total_txs) :=
  ⟨by decide,
    (availability_seen_counts wCanon wMs ("mainnet") wDay (1, wDay, 2) (by decide)).1⟩

/-- C3 counterexample: the BETWEEN date filter of network_overview admits
the timestamp exactly one day after start-of-day, which the claimed
half-open window excludes (start-of-day 0, timestamp 86400000). -/
theorem date_filter_between_cex :
    NetworkOverview.dateFilterHolds 0 86400000 = true
    ∧ ¬((86400000 : Int) < 0 + 86400000) := ⟨by decide, by decide⟩

/-- C3 amended: the mempool-visibility date filter admits a timestamp t
exactly when start-of-day ≤ t < start-of-day + 1 day, while the
network-overview BETWEEN filter admits t exactly when
start-of-day ≤ t ≤ start-of-day + 1 day (closed at the upper endpoint). -/
theorem date_filter_semantics :
    ∀ dayStart t : Int,
      (MempoolVisibility.dateFilterHolds dayStart t = true
          ↔ dayStart ≤ t ∧ t < dayStart + dayMs)
      ∧ (NetworkOverview.dateFilterHolds dayStart t = true
          ↔ dayStart ≤ t ∧ t ≤ dayStart + dayMs) := by
  intro d t
  constructor <;>
    simp [MempoolVisibility.dateFilterHolds, NetworkOverview.dateFilterHolds]

/-- C4 counterexample: fetch_xatu_client_connectivity returns only the row
count; its return value carries no query text even on a trivial client. -/
theorem xatu_return_without_query_text :
    (NetworkOverview.fetch_xatu_client_connectivity (fun _ => ([] : List Nat))
        ("2024-01-01") ("out.parquet") ("mainnet")).includesQueryText = false := rfl

/-- C4 amended: the four mempool-visibility fetch functions return the pair
of the client's response and the exact query text issued to the client;
fetch_xatu_client_connectivity issues its query the same way but returns
only the row count of the response. -/
theorem fetch_return_contract :
    ∀ (DF : Type) (clientA clientB clientC clientD : String → DF)
      (Row : Type) (clientE : String → List Row) (target network path : String),
      MempoolVisibility.fetch_tx_per_slot clientA target network
          = .withQuery (clientA (MempoolVisibility.tx_per_slot_query target network))
              (MempoolVisibility.tx_per_slot_query target network)
      ∧ MempoolVisibility.fetch_mempool_coverage clientB target network
          = .withQuery (clientB (MempoolVisibility.mempool_coverage_query target network))
              (MempoolVisibility.mempool_coverage_query target network)
      ∧ MempoolVisibility.fetch_sentry_coverage clientC target network
          = .withQuery (clientC (MempoolVisibility.sentry_coverage_query target network))
              (MempoolVisibility.sentry_coverage_query target network)
      ∧ MempoolVisibility.fetch_mempool_availability clientD target network
          = .withQuery (clientD (MempoolVisibility.mempool_availability_query target network))
              (MempoolVisibility.mempool_availability_query target network)
      ∧ NetworkOverview.fetch_xatu_client_connectivity clientE target path network
          = .countOnly (clientE (NetworkOverview.xatu_client_connectivity_query
              target network)).length := by
  intro DF cA cB cC cD Row cE target network path
  exact ⟨rfl, rfl, rfl, rfl, rfl⟩

open MempoolVisibility in
/-- C5 counterexample: for a target day starting at 2020-01-01 the
three-day window contains a pre-2020 sentinel observation; the code's
first_seen lookup takes the raw minimum (the sentinel), while the claimed
pre-filtered lookup returns the later genuine observation. -/
theorem first_seen_sentinel_cex :
    first_event_time wSentinelMs ("mainnet") epoch2020ms ("h")
        = some (epoch2020ms - dayMs)
    ∧ first_event_time_claim wSentinelMs ("mainnet") epoch2020ms ("h")
        = some (epoch2020ms + 5)
    ∧ epoch2020ms - dayMs < epoch2020ms := ⟨by decide, by decide, by decide⟩

open MempoolVisibility in
/-- C5 amended: the first_seen table takes the minimum over the three-day
window with no sentinel pre-filter (the pre-2020 exclusion is applied
afterwards, inside the seen_before and seen_after conditions); the claimed
pre-filtered table coincides with the code's whenever the window start is
at or after 2020-01-01. -/
theorem first_seen_no_prefilter :
    ∀ (ms : List MempoolTx) (network : String) (dayStart : Int) (h : String),
      epoch2020ms ≤ dayStart - dayMs →
      first_event_time ms network dayStart h
        = first_event_time_claim ms network dayStart h := by
  intro ms network dayStart h hd
  unfold first_event_time first_event_time_claim first_seen_window
  have hfilter : ms.filter (fun m =>
      decide (m.meta_network_name = network)
        && decide (dayStart - dayMs ≤ m.event_date_time)
        && decide (m.event_date_time < dayStart + 2 * dayMs))
      = ms.filter (fun m =>
      decide (m.meta_network_name = network)
        && decide (dayStart - dayMs ≤ m.event_date_time)
        && decide (m.event_date_time < dayStart + 2 * dayMs)
        && decide (epoch2020ms ≤ m.event_date_time)) := by
    apply List.filter_congr
    intro m _
    by_cases h1 : dayStart - dayMs ≤ m.event_date_time
    · have h2 : epoch2020ms ≤ m.event_date_time := le_trans hd h1
      simp [h1, h2]
    · simp [h1]
  rw [hfilter]

open MempoolVisibility in
/-- Witness for C5 amended at a concrete window starting at 2020-01-01. -/
theorem first_seen_no_prefilter_witness :
    epoch2020ms ≤ wDay - dayMs
    ∧ first_event_time wMs ("mainnet") wDay ("h1")
        = first_event_time_claim wMs ("mainnet") wDay ("h1") :=
  ⟨by decide, first_seen_no_prefilter wMs ("mainnet") wDay ("h1") (by decide)⟩

open MempoolVisibility in
/-- C7: every row of the fetch_sentry_coverage result has coverage_pct in
[0, 100], and the denominator is the single scalar total_canonical value of
the invocation, shared by every sentry row (each row's percentage is
round2 of txs_seen * 100 over that one denominator). -/
theorem sentry_coverage_pct_bounds :
    ∀ (ms : List MempoolTx) (canon : List CanonicalTx) (network : String) (dayStart : Int)
      (s : String), s ∈ sentry_names ms canon network dayStart →
      0 < total_canonical canon network dayStart
      ∧ txs_seen ms canon network dayStart s ≤ total_canonical canon network dayStart
      ∧ 0 ≤ (sentryRow ms canon network dayStart s).coverage_pct
      ∧ (sentryRow ms canon network dayStart s).coverage_pct ≤ 100
      ∧ (sentryRow ms canon network dayStart s).coverage_pct
          = round2 ((txs_seen ms canon network dayStart s : ℚ) * 100
              / (total_canonical canon network dayStart : ℚ)) := by
  intro ms canon network dayStart s hs
  have hpool : ∃ m ∈ sentry_pool ms canon network dayStart, m.meta_client_name = s := by
    simpa [sentry_names, List.mem_dedup, List.mem_map] using hs
  obtain ⟨m, hm, _⟩ := hpool
  have hmem : m.hash ∈ canonical_hashes canon network dayStart := by
    simp only [sentry_pool, List.mem_filter, Bool.and_eq_true, decide_eq_true_eq] at hm
    exact hm.2.2
  have htot : 0 < total_canonical canon network dayStart := by
    show 0 < (canonical_hashes canon network dayStart).length
    refine List.length_pos.mpr ?_
    intro h0
    rw [h0] at hmem
    exact List.not_mem_nil _ hmem
  have hseen : txs_seen ms canon network dayStart s ≤ total_canonical canon network dayStart := by
    have hsub : (((sentry_pool ms canon network dayStart).filter
        (fun m => decide (m.meta_client_name = s))).map (fun m => m.hash)).dedup
          ⊆ canonical_hashes canon network dayStart := by
      intro x hx
      rw [List.mem_dedup, List.mem_map] at hx
      obtain ⟨m', hm', hxm⟩ := hx
      rw [List.mem_filter] at hm'
      have hm'pool := hm'.1
      simp only [sentry_pool, List.mem_filter, Bool.and_eq_true, decide_eq_true_eq] at hm'pool
      exact hxm ▸ hm'pool.2.2
    exact ((List.nodup_dedup _).subperm hsub).length_le
  have hb0 : (0 : ℚ) < (total_canonical canon network dayStart : ℚ) := by exact_mod_cast htot
  have hab : ((txs_seen ms canon network dayStart s : ℚ))
      ≤ (total_canonical canon network dayStart : ℚ) := by exact_mod_cast hseen
  have ha0 : (0 : ℚ) ≤ (txs_seen ms canon network dayStart s : ℚ) := by positivity
  have hq0 : (0 : ℚ) ≤ (txs_seen ms canon network dayStart s : ℚ) * 100
      / (total_canonical canon network dayStart : ℚ) := by positivity
  have hq100 : (txs_seen ms canon network dayStart s : ℚ) * 100
      / (total_canonical canon network dayStart : ℚ) ≤ 100 := by
    rw [div_le_iff₀ hb0]
    nlinarith
  have hrlo : (0 : ℤ) ≤ round (((txs_seen ms canon network dayStart s : ℚ) * 100
      / (total_canonical canon network dayStart : ℚ)) * 100) := by
    have h0 : round ((0 : ℚ)) ≤ round (((txs_seen ms canon network dayStart s : ℚ) * 100
        / (total_canonical canon network dayStart : ℚ)) * 100) := by
      rw [round_eq, round_eq]
      exact Int.floor_le_floor (by nlinarith)
    simpa using h0
  have hrhi : round (((txs_seen ms canon network dayStart s : ℚ) * 100
      / (total_canonical canon network dayStart : ℚ)) * 100) ≤ 10000 := by
    have h1 : round (((txs_seen ms canon network dayStart s : ℚ) * 100
        / (total_canonical canon network dayStart : ℚ)) * 100) ≤ round ((10000 : ℚ)) := by
      rw [round_eq, round_eq]
      exact Int.floor_le_floor (by nlinarith)
    have h2 : round ((10000 : ℚ)) = 10000 := by norm_num [round_eq]
    omega
  refine ⟨htot, hseen, ?_, ?_, rfl⟩
  · show (0 : ℚ) ≤ round2 _
    unfold round2
    refine div_nonneg ?_ (by norm_num)
    exact_mod_cast hrlo
  · show round2 _ ≤ (100 : ℚ)
    unfold round2
    rw [div_le_iff₀ (by norm_num : (0:ℚ) < 100)]
    have : ((round (((txs_seen ms canon network dayStart s : ℚ) * 100
        / (total_canonical canon network dayStart : ℚ)) * 100) : ℤ) : ℚ) ≤ 10000 := by
      exact_mod_cast hrhi
    linarith

open MempoolVisibility in
/-- Witness for C7: sentry s1 saw one of the two canonical hashes. -/
theorem sentry_coverage_pct_bounds_witness :
    ("s1") ∈ sentry_names wMs wCanon ("mainnet") wDay
    ∧ 0 ≤ (sentryRow wMs wCanon ("mainnet") wDay ("s1")).coverage_pct
    ∧ (sentryRow wMs wCanon ("mainnet") wDay ("s1")).coverage_pct ≤ 100 :=
  ⟨by decide,
    (sentry_coverage_pct_bounds wMs wCanon ("mainnet") wDay ("s1") (by decide)).2.2.1,
    (sentry_coverage_pct_bounds wMs wCanon ("mainnet") wDay ("s1") (by decide)).2.2.2.1⟩

open MempoolVisibility in
/-- C8: the fetch_mempool_coverage result computed with the semi-join
membership against the deduplicated windowed hash set equals, group for
group, the result computed with an EXISTS over the mempool rows of the
window (one hour before the target day through its end) matched on hash. -/
theorem coverage_semijoin_eq_exists :
    ∀ (canon : List CanonicalTx) (ms : List MempoolTx) (network : String) (dayStart : Int),
      fetch_mempool_coverage_rows canon ms network dayStart
        = fetch_mempool_coverage_rows_claim canon ms network dayStart := by
  intro canon ms network dayStart
  unfold fetch_mempool_coverage_rows fetch_mempool_coverage_rows_claim
  apply List.map_congr_left
  intro k _
  have hcount : (coverage_group canon network dayStart k).countP (fun c =>
      decide (c.hash ∈ mempool_hash_set ms network dayStart))
      = (coverage_group canon network dayStart k).countP (fun c =>
      decide (∃ m ∈ ms, m.meta_network_name = network
        ∧ dayStart - hourMs ≤ m.event_date_time
        ∧ m.event_date_time < dayStart + dayMs
        ∧ m.hash = c.hash)) := by
    apply List.countP_congr
    intro c _
    simp only [decide_eq_true_eq]
    constructor
    · intro hmem
      simp only [mempool_hash_set] at hmem
      rw [List.mem_dedup, List.mem_map] at hmem
      obtain ⟨m, hm, hhm⟩ := hmem
      rw [List.mem_filter] at hm
      obtain ⟨hm1, hm2⟩ := hm
      simp only [Bool.and_eq_true, decide_eq_true_eq] at hm2
      exact ⟨m, hm1, hm2.1.1, hm2.1.2, hm2.2, hhm⟩
    · rintro ⟨m, hm1, hnet, hw1, hw2, hh⟩
      simp only [mempool_hash_set]
      rw [List.mem_dedup, List.mem_map]
      refine ⟨m, ?_, hh⟩
      rw [List.mem_filter]
      refine ⟨hm1, ?_⟩
      simp only [Bool.and_eq_true, decide_eq_true_eq]
      exact ⟨⟨hnet, hw1⟩, hw2⟩
  rw [hcount]

theorem sqlLike_no_wild_list : ∀ (p s : List Char),
    (p.all (fun c => !(c == '%') && !(c == '_'))) = true →
    (sqlLike p s = true ↔ s = p) := by
  intro p
  induction p with
  | nil =>
    intro s _
    cases s with
    | nil => simp [sqlLike]
    | cons d s' => simp [sqlLike]
  | cons c ps ih =>
    intro s hall
    simp only [List.all_cons, Bool.and_eq_true] at hall
    obtain ⟨⟨hc1, hc2⟩, hps⟩ := hall
    have hc1' : (c == '%') = false := by
      cases hb : (c == '%') <;> simp [hb] at hc1 ⊢
    have hc2' : (c == '_') = false := by
      cases hb : (c == '_') <;> simp [hb] at hc2 ⊢
    cases s with
    | nil =>
      simp only [sqlLike, hc1', Bool.false_and]
      simp
    | cons d s' =>
      simp only [sqlLike, hc1', Bool.false_eq_true, if_false, hc2', Bool.false_or,
        Bool.and_eq_true, beq_iff_eq, ih s' hps]
      constructor
      · rintro ⟨h1, h2⟩
        rw [h1, h2]
      · intro h
        injection h with h1 h2
        exact ⟨h1.symm, h2⟩

/-- C9: the xatu connectivity query matches the network column with SQL
LIKE against the caller-supplied string, while the mempool-visibility
builders compare with equality.  For a pattern with no wildcard characters
LIKE coincides with equality; a pattern with a wildcard can admit other
network names, which the equality filter of the mempool builders rejects. -/
theorem network_filter_like_vs_eq :
    (∀ pat s : String, no_like_wildcards pat = true →
        (sqlLike pat.toList s.toList = true ↔ s = pat))
    ∧ (sqlLike ("main%").toList ("mainnet-shadow").toList = true
        ∧ ("mainnet-shadow" : String) ≠ "main%")
    ∧ (NetworkOverview.xatu_where ("main%") 0 ⟨0, "mainnet"⟩ = true
        ∧ MempoolVisibility.tx_where ("main%") 0 ⟨1, 0, 2, "h", "mainnet"⟩ = false) := by
  refine ⟨?_, ⟨by decide, by decide⟩, ⟨by decide, by decide⟩⟩
  intro pat s hw
  rw [sqlLike_no_wild_list pat.toList s.toList hw]
  constructor
  · intro h
    exact String.ext h
  · intro h
    rw [h]

/-- Witness for C9: the wildcard-free production default "mainnet" filters
by exact equality. -/
theorem network_filter_like_vs_eq_witness :
    no_like_wildcards ("mainnet") = true
    ∧ (sqlLike ("mainnet").toList ("xyz").toList = true ↔ ("xyz" : String) = "mainnet") :=
  ⟨by decide, network_filter_like_vs_eq.1 ("mainnet") ("xyz") (by decide)⟩

open MempoolVisibility in
/-- C10: AGE_HIST_LABELS has exactly fifteen entries, one per histogram
column emitted by hist_columns (bounds_ms length plus one), and the label
at index i is the rendering, in ascending order, of the range of bucket i
defined by bounds_ms. -/
theorem age_hist_labels_describe :
    AGE_HIST_LABELS.length = bounds_ms.length + 1
    ∧ AGE_HIST_LABELS.length = 15
    ∧ (∀ value_expr condition pfx : String,
        (hist_columns_list value_expr condition pfx).length = AGE_HIST_LABELS.length)
    ∧ AGE_HIST_LABELS = (List.range (bounds_ms.length + 1)).map (bucketLabel bounds_ms) := by
  refine ⟨by decide, by decide, ?_, by decide⟩
  intro a b c
  simp [hist_columns_list, bounds_ms, AGE_HIST_LABELS]
